import Mathlib

set_option maxRecDepth 100000
set_option linter.unusedVariables false

/-!
Verification of the caching MySQL/Redis connector core logic.

Shallow embedding of the JavaScript source modules:
  * `core/autoKey.js`  (cache-key generation and auto-invalidation planning),
  * `redis.Connector.js` (guarded cache-store operations with fallback),
  * `dbConnector.js`   (retry wrapper, cached query, pagination, transactions).

JavaScript values relevant to the embedded code paths are modelled by
`JsVal`; machine arithmetic of the MD5 parameter hash is modelled on `Nat`
with explicit reduction modulo `2 ^ 32`.  External collaborators (the MySQL
pool and the Redis client) are modelled by explicit parameters carrying the
outcome of each collaborator call.
-/

/-- JavaScript values appearing as query parameters and cached data:
`null`, numbers (the integer-valued ones used by the code paths under
verification), strings, arrays, and plain objects. -/
inductive JsVal where
  | null
  | num (n : Int)
  | str (s : String)
  | arr (elems : List JsVal)
  | obj (fields : List (String × JsVal))

/-- Minimal JSON string escaping for the characters the embedding uses
(quote and backslash); other characters are emitted verbatim, matching
`JSON.stringify` on the ASCII identifier/number payloads the code hashes. -/
def jsonEscape (s : String) : String :=
  String.mk (s.toList.foldr
    (fun c acc =>
      if c = '"' then '\\' :: '"' :: acc
      else if c = '\\' then '\\' :: '\\' :: acc
      else c :: acc) [])

mutual
/-- `JSON.stringify` as used by `createParameterHash` on parameter arrays. -/
def jsonStringify : JsVal → String
  | .null => "null"
  | .num n => toString n
  | .str s => "\"" ++ jsonEscape s ++ "\""
  | .arr l => "[" ++ String.intercalate "," (jsonStringifyList l) ++ "]"
  | .obj fs => "\x7b" ++ String.intercalate "," (jsonStringifyFields fs) ++ "\x7d"

def jsonStringifyList : List JsVal → List String
  | [] => []
  | v :: vs => jsonStringify v :: jsonStringifyList vs

def jsonStringifyFields : List (String × JsVal) → List String
  | [] => []
  | (k, v) :: fs => ("\"" ++ jsonEscape k ++ "\":" ++ jsonStringify v) :: jsonStringifyFields fs
end

namespace Md5

/-- Word size of the MD5 state registers. -/
def M32 : Nat := 4294967296

/-- Left rotation of a 32-bit word. -/
def rotl32 (x s : Nat) : Nat :=
  ((x <<< s) % M32) ||| (x >>> (32 - s))

/-- The 64 MD5 sine-derived round constants. -/
def K : List Nat :=
  [3614090360, 3905402710, 606105819, 3250441966, 4118548399, 1200080426, 2821735955, 4249261313,
   1770035416, 2336552879, 4294925233, 2304563134, 1804603682, 4254626195, 2792965006, 1236535329,
   4129170786, 3225465664, 643717713, 3921069994, 3593408605, 38016083, 3634488961, 3889429448,
   568446438, 3275163606, 4107603335, 1163531501, 2850285829, 4243563512, 1735328473, 2368359562,
   4294588738, 2272392833, 1839030562, 4259657740, 2763975236, 1272893353, 4139469664, 3200236656,
   681279174, 3936430074, 3572445317, 76029189, 3654602809, 3873151461, 530742520, 3299628645,
   4096336452, 1126891415, 2878612391, 4237533241, 1700485571, 2399980690, 4293915773, 2240044497,
   1873313359, 4264355552, 2734768916, 1309151649, 4149444226, 3174756917, 718787259, 3951481745]

/-- The 64 MD5 per-round left-rotation amounts. -/
def S : List Nat :=
  [7, 12, 17, 22, 7, 12, 17, 22, 7, 12, 17, 22, 7, 12, 17, 22,
   5, 9, 14, 20, 5, 9, 14, 20, 5, 9, 14, 20, 5, 9, 14, 20,
   4, 11, 16, 23, 4, 11, 16, 23, 4, 11, 16, 23, 4, 11, 16, 23,
   6, 10, 15, 21, 6, 10, 15, 21, 6, 10, 15, 21, 6, 10, 15, 21]

/-- Round function for rounds 0-15 (bitwise complement on 32-bit words is
subtraction from `2 ^ 32 - 1`). -/
def fF (b c d : Nat) : Nat := (b &&& c) ||| ((4294967295 - b) &&& d)

/-- Round function for rounds 16-31. -/
def fG (b c d : Nat) : Nat := (d &&& b) ||| ((4294967295 - d) &&& c)

/-- Round function for rounds 32-47. -/
def fH (b c d : Nat) : Nat := b ^^^ c ^^^ d

/-- Round function for rounds 48-63. -/
def fI (b c d : Nat) : Nat := c ^^^ (b ||| (4294967295 - d))

/-- One MD5 round on the state quadruple, consuming round index `i` against
the 16-word message block `m`. -/
def md5Round (m : List Nat) (st : Nat × Nat × Nat × Nat) (i : Nat) : Nat × Nat × Nat × Nat :=
  let a := st.1
  let b := st.2.1
  let c := st.2.2.1
  let d := st.2.2.2
  let fg : Nat × Nat :=
    if i < 16 then (fF b c d, i)
    else if i < 32 then (fG b c d, (5 * i + 1) % 16)
    else if i < 48 then (fH b c d, (3 * i + 5) % 16)
    else (fI b c d, (7 * i) % 16)
  let f := (fg.1 + a + K.getD i 0 + m.getD fg.2 0) % M32
  (d, (b + rotl32 f (S.getD i 0)) % M32, b, c)

/-- Process one 512-bit block (given as 16 little-endian words). -/
def md5Block (st : Nat × Nat × Nat × Nat) (m : List Nat) : Nat × Nat × Nat × Nat :=
  let r := (List.range 64).foldl (md5Round m) st
  ((st.1 + r.1) % M32, (st.2.1 + r.2.1) % M32, (st.2.2.1 + r.2.2.1) % M32,
   (st.2.2.2 + r.2.2.2) % M32)

/-- Group a padded byte list into little-endian 32-bit words. -/
def bytesToWordsLE : List Nat → List Nat
  | b0 :: b1 :: b2 :: b3 :: rest =>
      (b0 + 256 * b1 + 65536 * b2 + 16777216 * b3) :: bytesToWordsLE rest
  | _ => []

/-- Split a byte list into 64-byte chunks; the fuel argument (instantiated
with the list length) keeps the recursion structural so that the kernel can
evaluate it. -/
def chunks64Go : Nat → List Nat → List (List Nat)
  | 0, _ => []
  | _, [] => []
  | fuel + 1, x :: xs => (x :: xs).take 64 :: chunks64Go fuel ((x :: xs).drop 64)

/-- Split a byte list into 64-byte chunks. -/
def chunks64 (l : List Nat) : List (List Nat) :=
  chunks64Go l.length l

/-- MD5 padding: a `0x80` byte, zero bytes up to 56 mod 64, then the bit
length as a 64-bit little-endian integer. -/
def md5Pad (msg : List Nat) : List Nat :=
  let bitLen := msg.length * 8
  let z := (119 - msg.length % 64) % 64
  msg ++ 128 :: (List.replicate z 0 ++ (List.range 8).map (fun i => (bitLen >>> (8 * i)) % 256))

/-- Lowercase hexadecimal digit. -/
def hexDigit (n : Nat) : Char :=
  if n < 10 then Char.ofNat (48 + n) else Char.ofNat (87 + n)

/-- Render one 32-bit word as 8 hex characters in little-endian byte order. -/
def wordToHexLE (w : Nat) : String :=
  String.mk (((List.range 4).map
    (fun i =>
      let b := (w >>> (8 * i)) % 256
      [hexDigit (b / 16), hexDigit (b % 16)])).flatten)

/-- Full MD5 digest of a string, as the 32-character lowercase hex string
produced by `crypto.createHash('md5').update(s).digest('hex')`.  Input bytes
are the character codes (the hashed payloads are ASCII, where UTF-8 bytes
and code points coincide). -/
def md5Hex (s : String) : String :=
  let msg := s.toList.map Char.toNat
  let blocks := chunks64 (md5Pad msg)
  let st := blocks.foldl (fun st blk => md5Block st (bytesToWordsLE blk))
    (1732584193, 4023233417, 2562383102, 271733878)
  wordToHexLE st.1 ++ wordToHexLE st.2.1 ++ wordToHexLE st.2.2.1 ++ wordToHexLE st.2.2.2

end Md5

/-- Per-table invalidation rule as configured through
`enableAutoInvalidation`: a single pattern string or a list of patterns. -/
inductive InvalidationRule where
  | one (s : String)
  | many (l : List String)

/-- Process-wide configuration read by the core modules: the module-local
enable flags, the relevant environment variables, the table-specific
invalidation rules, and the `REDIS_ENABLED` flag. -/
structure CoreConfig where
  autoKeyEnabled : Bool
  envAutoFeatures : Option String
  autoInvalidationEnabled : Bool
  envAutoInvalidation : Option String
  invalidationRules : List (String × InvalidationRule)
  redisEnabled : Bool

namespace Scan

/-- Regex `\w`: ASCII letters, digits and underscore. -/
def isWordChar (c : Char) : Bool :=
  (65 ≤ c.toNat && c.toNat ≤ 90) || (97 ≤ c.toNat && c.toNat ≤ 122) ||
  (48 ≤ c.toNat && c.toNat ≤ 57) || c.toNat = 95

/-- Regex `\s` restricted to the ASCII whitespace characters appearing in
SQL text: space, tab, newline, carriage return, vertical tab, form feed. -/
def isSpace (c : Char) : Bool :=
  c.toNat = 32 || c.toNat = 9 || c.toNat = 10 || c.toNat = 13 || c.toNat = 11 || c.toNat = 12

/-- Case-insensitive literal match at the head of the input; returns the
remaining input on success (the `i` regex flag). -/
def matchCI : List Char → List Char → Option (List Char)
  | [], s => some s
  | _ :: _, [] => none
  | p :: ps, c :: cs => if p.toLower = c.toLower then matchCI ps cs else none

/-- Number of leading whitespace characters (the greedy extent of `\s+`). -/
def leadingSpaces : List Char → Nat
  | [] => 0
  | c :: cs => if isSpace c then leadingSpaces cs + 1 else 0

/-- Length of the maximal `\w+` prefix. -/
def wordTakeLen : List Char → Nat
  | [] => 0
  | c :: cs => if isWordChar c then wordTakeLen cs + 1 else 0

/-- Leftmost-match scan: try the position matcher `f` at every suffix from
left to right, as an unanchored regex search does. -/
def scanFirst (f : List Char → Option α) : List Char → Option α
  | [] => f []
  | c :: cs =>
    match f (c :: cs) with
    | some r => some r
    | none => scanFirst f cs

/-- `String.prototype.trim`: drop leading and trailing whitespace. -/
def trimJS (s : List Char) : List Char :=
  ((s.dropWhile isSpace).reverse.dropWhile isSpace).reverse

/-- Byte-wise (UTF-16 code unit for ASCII) lexicographic order on strings,
the comparison used by JavaScript `Array.prototype.sort` without a
comparator. -/
def lexLe : List Char → List Char → Bool
  | [], _ => true
  | _ :: _, [] => false
  | a :: as, b :: bs =>
    if a.toNat < b.toNat then true
    else if a.toNat = b.toNat then lexLe as bs
    else false

/-- String comparison used to model `Array.prototype.sort()` on key
identifiers. -/
def strLe (a b : String) : Bool := lexLe a.toList b.toList

end Scan

namespace AutoKey

open Scan

/-- Body of `createParameterHash`: `'all'` for an empty parameter list,
otherwise the first 8 hex characters of the MD5 of the JSON-serialized
parameter array. -/
def createParameterHash (parameters : List JsVal) : String :=
  if parameters.isEmpty then "all"
  else (Md5.md5Hex (jsonStringify (JsVal.arr parameters))).take 8

/-- Matcher for one table-extraction regex alternative at a fixed position:
the given keywords, each followed by `\s+`, then an optional backtick and a
captured `\w+` (e.g. `INSERT\s+INTO\s+` followed by a backtick-optional
word). -/
def kwTableAt (kws : List (List Char)) (s : List Char) : Option String :=
  match kws with
  | [] =>
    let s1 := match s with
      | c :: cs => if c = Char.ofNat 96 then cs else c :: cs
      | [] => []
    let n := wordTakeLen s1
    if n = 0 then none else some (String.mk (s1.take n))
  | kw :: rest =>
    match matchCI kw s with
    | none => none
    | some r =>
      let m := leadingSpaces r
      if m = 0 then none else kwTableAt rest (r.drop m)

/-- Leftmost match of one table-extraction regex over the whole statement. -/
def findTableKw (kws : List (List Char)) (s : List Char) : Option String :=
  scanFirst (kwTableAt kws) s

/-- `extractTableName` from `core/autoKey.js`: try `FROM`, `INSERT INTO`,
`UPDATE`, `DELETE FROM` in that order, case-insensitively, tolerating an
optional backtick before the captured table word. -/
def extractTableName (sql : String) : Option String :=
  match findTableKw ["FROM".toList] sql.toList with
  | some t => some t
  | none =>
    match findTableKw ["INSERT".toList, "INTO".toList] sql.toList with
    | some t => some t
    | none =>
      match findTableKw ["UPDATE".toList] sql.toList with
      | some t => some t
      | none =>
        match findTableKw ["DELETE".toList, "FROM".toList] sql.toList with
        | some t => some t
        | none => none

/-- Matcher for `ORDER\s+BY` (and, with other keywords, `GROUP\s+BY`) at a
fixed position. -/
def kwPairAt (k1 k2 : List Char) (s : List Char) : Bool :=
  match matchCI k1 s with
  | none => false
  | some r =>
    let m := leadingSpaces r
    if m = 0 then false else (matchCI k2 (r.drop m)).isSome

/-- The terminator alternation `(?:ORDER\s+BY|LIMIT|GROUP\s+BY|HAVING|$)` of
the WHERE-clause regex, tested at a fixed position. -/
def whereTerminatorAt (s : List Char) : Bool :=
  kwPairAt "ORDER".toList "BY".toList s || (matchCI "LIMIT".toList s).isSome ||
  kwPairAt "GROUP".toList "BY".toList s || (matchCI "HAVING".toList s).isSome || s.isEmpty

/-- Lazy `(.+?)` capture: consume at least one character and stop at the
first point where the terminator alternation matches. -/
def lazyCapture : List Char → List Char → Option (List Char)
  | _, [] => none
  | acc, c :: cs =>
    if whereTerminatorAt cs then some ((c :: acc).reverse)
    else lazyCapture (c :: acc) cs

/-- Backtracking over the greedy `\s+` after `WHERE`: try consuming `j`
spaces for `j` from the maximal count down to 1. -/
def whereSpacesBt (r : List Char) : Nat → Option (List Char)
  | 0 => none
  | j + 1 =>
    match lazyCapture [] (r.drop (j + 1)) with
    | some cap => some cap
    | none => whereSpacesBt r j

/-- Matcher for `WHERE\s+(.+?)(?:ORDER\s+BY|LIMIT|GROUP\s+BY|HAVING|$)` at a
fixed position; returns the captured group. -/
def matchWhereAt (s : List Char) : Option (List Char) :=
  match matchCI "WHERE".toList s with
  | none => none
  | some r => whereSpacesBt r (leadingSpaces r)

/-- Separator keyword alternation `(AND|OR)` at a fixed position, returning
the matched text (for the capture group spliced in by `String.split`) and
the remainder. -/
def sepKw (r : List Char) : Option (List Char × List Char) :=
  match matchCI "AND".toList r with
  | some rest => some (r.take 3, rest)
  | none =>
    match matchCI "OR".toList r with
    | some rest => some (r.take 2, rest)
    | none => none

/-- Backtracking over the leading greedy `\s+` of the split regex
`\s+(AND|OR)\s+`; returns the capture and the total number of characters
consumed by the separator match. -/
def sepSpacesBt (s : List Char) : Nat → Option (List Char × Nat)
  | 0 => none
  | j + 1 =>
    match sepKw (s.drop (j + 1)) with
    | some (cap, rest) =>
      let m2 := leadingSpaces rest
      if m2 = 0 then sepSpacesBt s j else some (cap, (j + 1) + cap.length + m2)
    | none => sepSpacesBt s j

/-- Separator match `\s+(AND|OR)\s+` anchored at the current position. -/
def trySepAt (s : List Char) : Option (List Char × Nat) :=
  sepSpacesBt s (leadingSpaces s)

/-- Worker for `String.split(/\s+(AND|OR)\s+/i)`: segments between separator
matches, with the captured `AND`/`OR` text spliced between them.  The fuel
is instantiated with the input length to keep the recursion structural. -/
def splitGo : Nat → List Char → List Char → List String
  | _, [], acc => [String.mk acc.reverse]
  | 0, rest, acc => [String.mk (acc.reverse ++ rest)]
  | fuel + 1, c :: cs, acc =>
    match trySepAt (c :: cs) with
    | some (cap, n) =>
      String.mk acc.reverse :: String.mk cap :: splitGo fuel (List.drop n (c :: cs)) []
    | none => splitGo fuel cs (c :: acc)

/-- `whereClause.split(/\s+(AND|OR)\s+/i)` including the spliced capture
groups. -/
def splitAndOr (s : List Char) : List String :=
  splitGo s.length s []

/-- Test for `/^(AND|OR)$/i` on the trimmed part, the filter applied to the
split result. -/
def isAndOrOnly (p : String) : Bool :=
  let t := String.mk ((trimJS p.toList).map Char.toLower)
  t = "and" || t = "or"

/-- `extractWhereConditions` from `core/autoKey.js`: capture the WHERE
clause, trim it, split on `AND`/`OR` separators, drop the pure `AND`/`OR`
parts, and trim each condition fragment. -/
def extractWhereConditions (sql : String) : List String :=
  match scanFirst matchWhereAt sql.toList with
  | none => []
  | some cap =>
    let whereClause := trimJS cap
    let conditions := (splitAndOr whereClause).filter (fun p => !(isAndOrOnly p))
    conditions.map (fun c => String.mk (trimJS c.toList))

/-- Comparison-operator alternation
`(?:=|>|<|>=|<=|!=|<>|IN|LIKE|NOT\s+IN|NOT\s+LIKE)` tested at a fixed
position (only existence matters; the operator is not captured). -/
def opAt (r : List Char) : Bool :=
  (matchCI "=".toList r).isSome || (matchCI ">".toList r).isSome ||
  (matchCI "<".toList r).isSome || (matchCI "!=".toList r).isSome ||
  (matchCI "IN".toList r).isSome || (matchCI "LIKE".toList r).isSome ||
  kwPairAt "NOT".toList "IN".toList r || kwPairAt "NOT".toList "LIKE".toList r

/-- Backtracking over the greedy `\s*` between the captured identifier and
the operator: try `j` spaces for `j` from the maximal count down to 0. -/
def opSpacesBt (rest : List Char) : Nat → Bool
  | 0 => opAt rest
  | j + 1 => opAt (rest.drop (j + 1)) || opSpacesBt rest j

/-- Backtracking over the greedy captured `(\w+)`: try capture lengths from
the maximal word length down to 1. -/
def colLenBt (s : List Char) : Nat → Option String
  | 0 => none
  | l + 1 =>
    let rest := s.drop (l + 1)
    if opSpacesBt rest (leadingSpaces rest) then
      some (String.mk ((s.take (l + 1)).map Char.toLower))
    else colLenBt s l

/-- Matcher for `(\w+)\s*(?:=|>|<|>=|<=|!=|<>|IN|LIKE|NOT\s+IN|NOT\s+LIKE)`
at a fixed position; returns the lowercased capture. -/
def matchColAt (s : List Char) : Option String :=
  let n := wordTakeLen s
  if n = 0 then none else colLenBt s n

/-- Left-hand column identifier of one WHERE condition, lowercased, as
matched by the column regex of `extractColumnNames`. -/
def matchColumn (cond : String) : Option String :=
  scanFirst matchColAt cond.toList

/-- `extractColumnNames` from `core/autoKey.js`: collect the per-condition
identifier matches and sort them (JavaScript default sort). -/
def extractColumnNames (conditions : List String) : List String :=
  List.insertionSort (fun a b => strLe a b = true) (conditions.filterMap matchColumn)

/-- `generateDetailedKey`: table plus sorted condition identifiers plus
parameter hash, with the documented fallbacks. -/
def generateDetailedKey (sql : String) (parameters : List JsVal) : String :=
  match extractTableName sql with
  | none => "query:" ++ (Md5.md5Hex sql).take 8
  | some tableName =>
    let conditions := extractWhereConditions sql
    if conditions.isEmpty then tableName ++ ":all"
    else
      let columns := extractColumnNames conditions
      if columns.isEmpty then tableName ++ ":" ++ createParameterHash parameters
      else tableName ++ ":" ++ String.intercalate ":" columns ++ ":" ++ createParameterHash parameters

/-- `generateSimpleKey`: table plus parameter hash, with the query-hash
fallback. -/
def generateSimpleKey (sql : String) (parameters : List JsVal) : String :=
  match extractTableName sql with
  | none => "query:" ++ (Md5.md5Hex sql).take 8
  | some tableName => tableName ++ ":" ++ createParameterHash parameters

/-- `generateCacheKey`: explicit strategy override, otherwise the auto
strategy chooses the detailed key for at most three parameters and the
simple key for four or more. -/
def generateCacheKey (sql : String) (parameters : List JsVal) (strategy : Option String) : String :=
  let strat := strategy.getD "auto"
  if strat = "simple" then generateSimpleKey sql parameters
  else if strat = "detailed" then generateDetailedKey sql parameters
  else if parameters.length ≤ 3 then generateDetailedKey sql parameters
  else generateSimpleKey sql parameters

/-- `isAutoKeyEnabled`: the module flag or the `CORE_AUTO_FEATURES`
environment variable. -/
def isAutoKeyEnabled (cfg : CoreConfig) : Bool :=
  cfg.autoKeyEnabled || cfg.envAutoFeatures == some "true"

end AutoKey

namespace AutoInvalidate

/-- The `resetCacheName` / `manualPattern` argument: absent (`null`), a
string, or an array of strings. -/
inductive ManualPattern where
  | null
  | str (s : String)
  | list (l : List String)

/-- JavaScript truthiness of a manual pattern: `null` and the empty string
are falsy; every array (empty or not) is truthy. -/
def ManualPattern.truthy : ManualPattern → Bool
  | .null => false
  | .str s => s ≠ ""
  | .list _ => true

/-- The list form `Array.isArray(manualPattern) ? manualPattern :
[manualPattern]` of a manual pattern. -/
def ManualPattern.asList : ManualPattern → List String
  | .null => []
  | .str s => [s]
  | .list l => l

/-- `extractTableName` from the auto-invalidation module: try
`INSERT INTO`, `UPDATE`, `DELETE FROM`, `REPLACE INTO` in that order. -/
def extractTableName (sql : String) : Option String :=
  match AutoKey.findTableKw ["INSERT".toList, "INTO".toList] sql.toList with
  | some t => some t
  | none =>
    match AutoKey.findTableKw ["UPDATE".toList] sql.toList with
    | some t => some t
    | none =>
      match AutoKey.findTableKw ["DELETE".toList, "FROM".toList] sql.toList with
      | some t => some t
      | none =>
        match AutoKey.findTableKw ["REPLACE".toList, "INTO".toList] sql.toList with
        | some t => some t
        | none => none

/-- `isWriteOperation`: `/^\s*(INSERT|UPDATE|DELETE|REPLACE)/i` tested on
the trimmed statement. -/
def isWriteOperation (sql : String) : Bool :=
  let t := Scan.trimJS sql.toList
  let r := t.drop (Scan.leadingSpaces t)
  (Scan.matchCI "INSERT".toList r).isSome || (Scan.matchCI "UPDATE".toList r).isSome ||
  (Scan.matchCI "DELETE".toList r).isSome || (Scan.matchCI "REPLACE".toList r).isSome

/-- `isAutoInvalidationEnabled`: the module flag or the
`CORE_AUTO_INVALIDATION` environment variable. -/
def isAutoInvalidationEnabled (cfg : CoreConfig) : Bool :=
  cfg.autoInvalidationEnabled || cfg.envAutoInvalidation == some "true"

/-- JavaScript truthiness of a configured rule value (an empty-string rule
is falsy; an array, even empty, is truthy). -/
def ruleTruthy : InvalidationRule → Bool
  | .one s => s ≠ ""
  | .many _ => true

/-- The list form of a configured rule. -/
def ruleAsList : InvalidationRule → List String
  | .one s => [s]
  | .many l => l

/-- `getInvalidationPatterns`: user-configured rules take priority,
otherwise the default two-pattern fallback for the table. -/
def getInvalidationPatterns (cfg : CoreConfig) (tableName : Option String) : List String :=
  match tableName with
  | none => []
  | some t =>
    if t = "" then []
    else
      match (cfg.invalidationRules.find? (fun p => p.1 == t)).map (fun p => p.2) with
      | some r => if ruleTruthy r then ruleAsList r else [t ++ "_*", t ++ ":*"]
      | none => [t ++ "_*", t ++ ":*"]

/-- `determineInvalidationPatterns`: a (truthy) manual pattern wins;
otherwise auto invalidation must be enabled and the statement must be a
write operation. -/
def determineInvalidationPatterns (cfg : CoreConfig) (sql : String)
    (manualPattern : ManualPattern) : List String :=
  if manualPattern.truthy then manualPattern.asList
  else if !(isAutoInvalidationEnabled cfg) then []
  else if !(isWriteOperation sql) then []
  else getInvalidationPatterns cfg (extractTableName sql)

end AutoInvalidate

/-- A JavaScript `Error` as the embedded code observes it: a message and an
optional driver error code. -/
structure Err where
  msg : String
  code : Option String
deriving DecidableEq, Repr

namespace RedisConnector

/-- State of the cache-store collaborator for one guarded operation: the
configured namespace, the outcome of `waitForConnection`, an optional
outage error striking the underlying commands, and the current cache
contents (stored values are kept in parsed form; the
`JSON.stringify`/`JSON.parse` round trip is the identity on them). -/
structure RedisState where
  vhost : Option String
  ready : Except Err Unit
  opError : Option Err
  store : String → Option JsVal

/-- `_namespaceKey`: prefix with `REDIS_VHOST` when that variable is set
and non-empty (JavaScript truthiness). -/
def namespaceKey (st : RedisState) (key : String) : String :=
  match st.vhost with
  | some v => if v = "" then key else v ++ ":" ++ key
  | none => key

/-- `safeExec`: wait for readiness, run the operation, and on any failure
return the fallback when one was supplied, otherwise re-throw. -/
def safeExec (waitResult : Except Err Unit) (fn : Except Err α) (fallback : Option α) :
    Except Err α :=
  match waitResult with
  | .error e =>
    match fallback with
    | some fb => .ok fb
    | none => .error e
  | .ok _ =>
    match fn with
    | .error e =>
      match fallback with
      | some fb => .ok fb
      | none => .error e
    | .ok v => .ok v

/-- Inner operation of `getArrayItem`: `exists` then `get` then
`JSON.parse`, returning `[]` when the key is absent. -/
def getArrayItemFn (st : RedisState) (key : String) : Except Err JsVal :=
  match st.opError with
  | some e => .error e
  | none =>
    match st.store (namespaceKey st key) with
    | some v => .ok v
    | none => .ok (.arr [])

/-- `getArrayItem`: the guarded read with fallback `[]`. -/
def getArrayItem (st : RedisState) (key : String) : Except Err JsVal :=
  safeExec st.ready (getArrayItemFn st key) (some (.arr []))

/-- Inner operation of `addArrayItem`: `setex` then return the input
array. -/
def addArrayItemFn (st : RedisState) (array : JsVal) : Except Err JsVal :=
  match st.opError with
  | some e => .error e
  | none => .ok array

/-- `addArrayItem`: the guarded write whose fallback is the input array
itself. -/
def addArrayItem (st : RedisState) (key : String) (array : JsVal) (expiry : Nat) :
    Except Err JsVal :=
  safeExec st.ready (addArrayItemFn st array) (some array)

end RedisConnector

namespace DbConnector

open RedisConnector AutoInvalidate

/-- The fixed transient-error allow-list of `executeWithRetry`. -/
def isTransientCode (code : Option String) : Bool :=
  code == some "ECONNREFUSED" || code == some "ETIMEDOUT" || code == some "ENOTFOUND" ||
  code == some "PROTOCOL_CONNECTION_LOST" || code == some "ER_CON_COUNT_ERROR"

/-- Error thrown inside the retry loop once shutdown has been initiated. -/
def shutdownError : Err :=
  ⟨"Server is shutting down, cannot process new queries", none⟩

/-- Observable outcome of one `executeWithRetry` call: the returned or
thrown value (`none` models the `undefined` return when `retries = 0` and
the loop body never runs), the number of loop iterations performed, and the
backoff delays slept between attempts. -/
structure RetryOutcome (α : Type) where
  result : Option (Except Err α)
  attempts : Nat
  delays : List Nat

/-- Loop body of `executeWithRetry`.  `i` is the loop counter; the fuel
argument (instantiated with `retries`, so that `fuel = retries - i` holds
throughout) makes the recursion structural.  Attempt `i` fails fast with
`shutdownError` when shutdown was initiated; an error on the last iteration
is re-thrown, a transient error sleeps `delay * 2 ^ i` and retries, any
other error is re-thrown immediately. -/
def retryGo (shuttingDown : Bool) (fn : Nat → Except Err α) (retries delay : Nat) :
    Nat → Nat → RetryOutcome α
  | _, 0 => ⟨none, 0, []⟩
  | i, fuel + 1 =>
    match (if shuttingDown then Except.error shutdownError else fn i) with
    | .ok v => ⟨some (.ok v), 1, []⟩
    | .error e =>
      if i = retries - 1 then ⟨some (.error e), 1, []⟩
      else if isTransientCode e.code then
        let rest := retryGo shuttingDown fn retries delay (i + 1) fuel
        ⟨rest.result, rest.attempts + 1, delay * 2 ^ i :: rest.delays⟩
      else ⟨some (.error e), 1, []⟩

/-- `executeWithRetry fn retries delay`, with the attempt outcomes supplied
by `fn : Nat → Except Err α` (attempt index to result of `fn(database)`). -/
def executeWithRetry (shuttingDown : Bool) (fn : Nat → Except Err α) (retries delay : Nat) :
    RetryOutcome α :=
  retryGo shuttingDown fn retries delay 0 retries

/-- The `cachedData.length > 0` cache-hit test of `getCacheQuery`: arrays
and strings expose `length`; on other values the property is `undefined`
and the comparison is false. -/
def jsLengthGtZero : JsVal → Bool
  | .arr l => !l.isEmpty
  | .str s => !(s.isEmpty)
  | _ => false

/-- Error thrown by `getCacheQuery` when no cache name is supplied and auto
key generation is disabled. -/
def cacheNameRequiredError : Err :=
  ⟨"cacheName is required. To enable auto key generation, set CORE_AUTO_FEATURES=true in .env",
   none⟩

/-- Observable trace of one `getCacheQuery` call: the resolved value or
thrown error, whether the retry wrapper was entered, whether the cache was
consulted, whether a pool connection was acquired, whether the backing
store was queried, and whether the result was written back to the cache. -/
structure CachedQueryTrace where
  result : Except Err JsVal
  enteredRetry : Bool
  cacheChecked : Bool
  connectionAcquired : Bool
  dbQueried : Bool
  cacheWritten : Bool

/-- Body of the `executeWithRetry` callback of `getCacheQuery`, for an
attempt whose backing-store query succeeds with `dbRows`: consult the cache
(when enabled), return a non-empty cached value, otherwise acquire a
connection, query the backing store, and cache the rows. -/
def getCacheQueryBody (cfg : CoreConfig) (st : RedisState) (dbRows : List JsVal)
    (finalCacheName : String) : CachedQueryTrace :=
  if cfg.redisEnabled then
    match getArrayItem st finalCacheName with
    | .ok cachedData =>
      if jsLengthGtZero cachedData then
        ⟨.ok cachedData, true, true, false, false, false⟩
      else
        ⟨.ok (.arr dbRows), true, true, true, true, true⟩
    | .error e => ⟨.error e, true, true, false, false, false⟩
  else ⟨.ok (.arr dbRows), true, false, true, true, false⟩

/-- `getCacheQuery`: resolve the cache name (a missing or empty `cacheName`
falls back to auto generation when enabled, and otherwise throws
synchronously before the retry wrapper runs), then run the cached-read
body. -/
def getCacheQuery (cfg : CoreConfig) (st : RedisState) (dbRows : List JsVal) (sql : String)
    (parameters : List JsVal) (cacheName : Option String) : CachedQueryTrace :=
  let provided : Option String :=
    match cacheName with
    | some n => if n = "" then none else some n
    | none => none
  match provided with
  | some n => getCacheQueryBody cfg st dbRows n
  | none =>
    if AutoKey.isAutoKeyEnabled cfg then
      getCacheQueryBody cfg st dbRows (AutoKey.generateCacheKey sql parameters none)
    else ⟨.error cacheNameRequiredError, false, false, false, false, false⟩

/-- The `page` argument of `getCacheQueryPagination` as callers may supply
it: `null`, `undefined`, `NaN`, a number, or a string. -/
inductive PageVal where
  | null
  | undef
  | nan
  | num (n : Int)
  | str (s : String)

/-- Value of an all-digit character list (used by string-to-number
coercion). -/
def digitsVal (ds : List Char) : Option Nat :=
  if ds.isEmpty then none
  else if ds.all (fun c => 48 ≤ c.toNat && c.toNat ≤ 57) then
    some (ds.foldl (fun acc c => acc * 10 + (c.toNat - 48)) 0)
  else none

/-- JavaScript `ToNumber` on the page values above, restricted to integer
numerals (`none` models `NaN`): `null` is 0, `undefined` and `NaN` are
`NaN`, a trimmed empty string is 0, a signed decimal numeral is its value,
any other string is `NaN`. -/
def jsToNumber : PageVal → Option Int
  | .null => some 0
  | .undef => none
  | .nan => none
  | .num n => some n
  | .str s =>
    match Scan.trimJS s.toList with
    | [] => some 0
    | c :: rest =>
      if c.toNat = 45 then (digitsVal rest).map (fun n => -(n : Int))
      else if c.toNat = 43 then (digitsVal rest).map (fun n => (n : Int))
      else (digitsVal (c :: rest)).map (fun n => (n : Int))

/-- The `const offset = page * pageSize` computation of
`getCacheQueryPagination` (JavaScript multiplication, `NaN` absorbing). -/
def pageOffset (page : PageVal) (pageSize : Int) : Option Int :=
  (jsToNumber page).map (fun p => p * pageSize)

/-- Template-string rendering of a possibly-`NaN` number. -/
def numToJsString : Option Int → String
  | none => "NaN"
  | some n => toString n

/-- The paginated statement built by `getCacheQueryPagination`:
the original statement with `LIMIT offset, pageSize` appended. -/
def paginatedSql (sql : String) (page : PageVal) (pageSize : Int) : String :=
  sql ++ " LIMIT " ++ numToJsString (pageOffset page pageSize) ++ ", " ++ toString pageSize

/-- One `tx.query(sql, parameters, resetCacheName)` call performed by a
transaction callback (the parameters do not influence invalidation
buffering and are omitted). -/
structure TxQuery where
  sql : String
  resetCacheName : ManualPattern

/-- The invalidation buffer accumulated by the `tx.query` calls of a
transaction callback: each call appends its determined patterns when the
cache layer is enabled. -/
def txBuffer (cfg : CoreConfig) (queries : List TxQuery) : List String :=
  queries.foldl
    (fun buf q =>
      if cfg.redisEnabled then
        buf ++ determineInvalidationPatterns cfg q.sql q.resetCacheName
      else buf)
    []

/-- First-occurrence deduplication, the semantics of
`[...new Set(invalidationBuffer)]`. -/
def jsSetDedup (l : List String) : List String :=
  l.foldl (fun acc x => if x ∈ acc then acc else acc ++ [x]) []

/-- Observable outcome of one `withTransaction` call: the returned or
re-thrown value, whether the transaction committed, how many rollback calls
were issued, the rollback errors that were logged (and swallowed), the
patterns passed to the cache-invalidation deletes, and whether the
connection was released. -/
structure TxResult (α : Type) where
  result : Except Err α
  committed : Bool
  rollbackCalls : Nat
  loggedRollbackErrors : List Err
  invalidations : List String
  released : Bool

/-- `withTransaction`: run the callback (modelled by its `tx.query` calls
and its final outcome); on success commit and flush the deduplicated
buffer, on failure (of the callback or of the commit) roll back once,
log — but never re-throw — a rollback error, and re-throw the original
error; release the connection in every case. -/
def withTransaction (cfg : CoreConfig) (queries : List TxQuery) (outcome : Except Err α)
    (commitResult : Except Err Unit) (rollbackResult : Except Err Unit) : TxResult α :=
  let buffer := txBuffer cfg queries
  match outcome with
  | .error e =>
    ⟨.error e, false, 1,
     (match rollbackResult with | .error re => [re] | .ok _ => []), [], true⟩
  | .ok a =>
    match commitResult with
    | .error ce =>
      ⟨.error ce, false, 1,
       (match rollbackResult with | .error re => [re] | .ok _ => []), [], true⟩
    | .ok _ =>
      ⟨.ok a, true, 0, [],
       if cfg.redisEnabled && !buffer.isEmpty then jsSetDedup buffer else [], true⟩

end DbConnector

/-- The JavaScript sort comparison is transitive. -/
instance strLeIsTrans : IsTrans String (fun a b => Scan.strLe a b = true) where
  trans := by
    suffices h : ∀ a b c : List Char,
        Scan.lexLe a b = true → Scan.lexLe b c = true → Scan.lexLe a c = true by
      intro x y z hxy hyz
      exact h x.toList y.toList z.toList hxy hyz
    intro a
    induction a with
    | nil => intro b c h1 h2; rfl
    | cons x xs ih =>
      intro b c h1 h2
      cases b with
      | nil => simp [Scan.lexLe] at h1
      | cons y ys =>
        cases c with
        | nil => simp [Scan.lexLe] at h2
        | cons z zs =>
          simp only [Scan.lexLe] at h1 h2 ⊢
          by_cases hxy : x.toNat < y.toNat
          · by_cases hyz : y.toNat < z.toNat
            · rw [if_pos (by omega : x.toNat < z.toNat)]
            · by_cases hyeq : y.toNat = z.toNat
              · rw [if_pos (by omega : x.toNat < z.toNat)]
              · rw [if_neg hyz, if_neg hyeq] at h2
                exact absurd h2 (by simp)
          · by_cases hxeq : x.toNat = y.toNat
            · rw [if_neg hxy, if_pos hxeq] at h1
              by_cases hyz : y.toNat < z.toNat
              · rw [if_pos (by omega : x.toNat < z.toNat)]
              · by_cases hyeq : y.toNat = z.toNat
                · rw [if_neg hyz, if_pos hyeq] at h2
                  rw [if_neg (by omega : ¬ x.toNat < z.toNat),
                    if_pos (by omega : x.toNat = z.toNat)]
                  exact ih ys zs h1 h2
                · rw [if_neg hyz, if_neg hyeq] at h2
                  exact absurd h2 (by simp)
            · rw [if_neg hxy, if_neg hxeq] at h1
              exact absurd h1 (by simp)

/-- The JavaScript sort comparison is total. -/
instance strLeIsTotal : IsTotal String (fun a b => Scan.strLe a b = true) where
  total := by
    suffices h : ∀ a b : List Char, Scan.lexLe a b = true ∨ Scan.lexLe b a = true by
      intro x y
      exact h x.toList y.toList
    intro a
    induction a with
    | nil => intro b; exact Or.inl rfl
    | cons x xs ih =>
      intro b
      cases b with
      | nil => exact Or.inr rfl
      | cons y ys =>
        simp only [Scan.lexLe]
        by_cases hlt : x.toNat < y.toNat
        · exact Or.inl (by rw [if_pos hlt])
        · by_cases heq : x.toNat = y.toNat
          · rcases ih ys with h | h
            · refine Or.inl ?_
              rw [if_neg hlt, if_pos heq]
              exact h
            · refine Or.inr ?_
              rw [if_neg (by omega : ¬ y.toNat < x.toNat), if_pos (by omega : y.toNat = x.toNat)]
              exact h
          · refine Or.inr ?_
            rw [if_pos (by omega : y.toNat < x.toNat)]

/-- Characters with equal code points are equal. -/
theorem charToNat_inj {a b : Char} (h : a.toNat = b.toNat) : a = b := by
  have hv : a.val = b.val := by
    cases hva : a.val
    cases hvb : b.val
    simp only [Char.toNat, hva, hvb, UInt32.toNat] at h
    congr 1
    exact BitVec.eq_of_toNat_eq h
  exact Char.eq_of_val_eq hv

/-- The JavaScript sort comparison is antisymmetric. -/
instance strLeIsAntisymm : IsAntisymm String (fun a b => Scan.strLe a b = true) where
  antisymm := by
    suffices h : ∀ a b : List Char,
        Scan.lexLe a b = true → Scan.lexLe b a = true → a = b by
      intro x y hxy hyx
      have h2 := h x.toList y.toList hxy hyx
      cases x
      cases y
      exact congrArg String.mk h2
    intro a
    induction a with
    | nil =>
      intro b h1 h2
      cases b with
      | nil => rfl
      | cons y ys => simp [Scan.lexLe] at h2
    | cons x xs ih =>
      intro b h1 h2
      cases b with
      | nil => simp [Scan.lexLe] at h1
      | cons y ys =>
        simp only [Scan.lexLe] at h1 h2
        by_cases hlt : x.toNat < y.toNat
        · rw [if_neg (by omega : ¬ y.toNat < x.toNat),
            if_neg (by omega : ¬ y.toNat = x.toNat)] at h2
          exact absurd h2 (by simp)
        · by_cases heq : x.toNat = y.toNat
          · have hc : x = y := charToNat_inj heq
            subst hc
            rw [if_neg hlt, if_pos rfl] at h1
            rw [if_neg hlt, if_pos rfl] at h2
            rw [ih ys h1 h2]
          · rw [if_neg hlt, if_neg heq] at h1
            exact absurd h1 (by simp)

/-- Membership in the fold underlying `jsSetDedup`. -/
theorem jsSetDedupGo_mem (l : List String) :
    ∀ (acc : List String) (x : String),
      x ∈ l.foldl (fun acc y => if y ∈ acc then acc else acc ++ [y]) acc ↔ x ∈ acc ∨ x ∈ l := by
  induction l with
  | nil => intro acc x; simp
  | cons a l ih =>
    intro acc x
    simp only [List.foldl_cons]
    by_cases ha : a ∈ acc
    · rw [if_pos ha, ih]
      constructor
      · rintro (h | h)
        · exact Or.inl h
        · exact Or.inr (List.mem_cons_of_mem a h)
      · rintro (h | h)
        · exact Or.inl h
        · rcases List.mem_cons.mp h with rfl | h
          · exact Or.inl ha
          · exact Or.inr h
    · rw [if_neg ha, ih]
      simp [List.mem_append, or_assoc]

/-- The fold underlying `jsSetDedup` preserves freedom from duplicates. -/
theorem jsSetDedupGo_nodup (l : List String) :
    ∀ acc : List String, acc.Nodup →
      (l.foldl (fun acc y => if y ∈ acc then acc else acc ++ [y]) acc).Nodup := by
  induction l with
  | nil => intro acc h; simpa using h
  | cons a l ih =>
    intro acc h
    simp only [List.foldl_cons]
    by_cases ha : a ∈ acc
    · rw [if_pos ha]; exact ih acc h
    · rw [if_neg ha]
      refine ih (acc ++ [a]) ?_
      simp [List.nodup_append, h, ha]

/-- `jsSetDedup` keeps exactly one copy of every element of its input. -/
theorem jsSetDedup_count (l : List String) (p : String) :
    (DbConnector.jsSetDedup l).count p = if p ∈ l then 1 else 0 := by
  have hmem := jsSetDedupGo_mem l [] p
  have hnd := jsSetDedupGo_nodup l [] List.nodup_nil
  by_cases hp : p ∈ l
  · rw [if_pos hp]
    exact List.count_eq_one_of_mem hnd (hmem.mpr (Or.inr hp))
  · rw [if_neg hp]
    apply List.count_eq_zero_of_not_mem
    intro hc
    exact hp ((hmem.mp hc).resolve_left (by simp))

/-- With the cache layer disabled no pattern is ever buffered inside a
transaction. -/
theorem txBuffer_redis_disabled (cfg : CoreConfig) (h : cfg.redisEnabled = false)
    (qs : List DbConnector.TxQuery) : DbConnector.txBuffer cfg qs = [] := by
  unfold DbConnector.txBuffer
  generalize ([] : List String) = init
  induction qs generalizing init with
  | nil => rfl
  | cons q qs ih =>
    rw [List.foldl_cons]
    have hstep :
        (if cfg.redisEnabled then
            init ++ AutoInvalidate.determineInvalidationPatterns cfg q.sql q.resetCacheName
          else init) = init := by
      rw [h]
      simp
    rw [hstep]
    exact ih init

/-- MD5 test vector: digest of the empty string. -/
theorem md5Hex_empty : Md5.md5Hex "" = "d41d8cd98f00b204e9800998ecf8427e" := by decide

/-- MD5 test vector: digest of "abc". -/
theorem md5Hex_abc : Md5.md5Hex "abc" = "900150983cd24fb0d6963f7d28e17f72" := by decide

/-- C1: for every transaction callback that throws, `withTransaction` rolls
the backing-store transaction back exactly once, never issues any
cache-invalidation call for the patterns buffered during the transaction,
re-raises the callback's original error regardless of the rollback outcome
(a rollback failure is only logged), does not commit, and releases the
connection. -/
theorem withTransaction_callback_failure {α : Type} (cfg : CoreConfig)
    (queries : List DbConnector.TxQuery) (e : Err)
    (commitResult rollbackResult : Except Err Unit) :
    (DbConnector.withTransaction cfg queries (Except.error e : Except Err α) commitResult
        rollbackResult).result = Except.error e ∧
    (DbConnector.withTransaction cfg queries (Except.error e : Except Err α) commitResult
        rollbackResult).invalidations = [] ∧
    (DbConnector.withTransaction cfg queries (Except.error e : Except Err α) commitResult
        rollbackResult).rollbackCalls = 1 ∧
    (DbConnector.withTransaction cfg queries (Except.error e : Except Err α) commitResult
        rollbackResult).committed = false ∧
    (DbConnector.withTransaction cfg queries (Except.error e : Except Err α) commitResult
        rollbackResult).released = true :=
  ⟨rfl, rfl, rfl, rfl, rfl⟩

/-- C3: for every transaction callback that succeeds (and a successful
commit), `withTransaction` commits, returns the callback's result, and
applies each distinct buffered pattern exactly once, however many times it
was buffered. -/
theorem withTransaction_commit_dedup {α : Type} (cfg : CoreConfig)
    (queries : List DbConnector.TxQuery) (a : α) (rollbackResult : Except Err Unit) :
    (DbConnector.withTransaction cfg queries (Except.ok a) (Except.ok ())
        rollbackResult).result = Except.ok a ∧
    (DbConnector.withTransaction cfg queries (Except.ok a) (Except.ok ())
        rollbackResult).committed = true ∧
    ∀ p : String,
      (DbConnector.withTransaction cfg queries (Except.ok a) (Except.ok ())
          rollbackResult).invalidations.count p =
        if p ∈ DbConnector.txBuffer cfg queries then 1 else 0 := by
  refine ⟨rfl, rfl, ?_⟩
  intro p
  show (if cfg.redisEnabled && !(DbConnector.txBuffer cfg queries).isEmpty then
      DbConnector.jsSetDedup (DbConnector.txBuffer cfg queries) else []).count p = _
  by_cases hre : cfg.redisEnabled
  · by_cases hbe : (DbConnector.txBuffer cfg queries).isEmpty
    · have hb : DbConnector.txBuffer cfg queries = [] := by
        simpa using hbe
      simp [hre, hb]
    · have hcond : (cfg.redisEnabled && !(DbConnector.txBuffer cfg queries).isEmpty) = true := by
        simp [hre, hbe]
      rw [if_pos hcond]
      exact jsSetDedup_count _ p
  · have hre' : cfg.redisEnabled = false := by
      simpa using hre
    have hb := txBuffer_redis_disabled cfg hre' queries
    simp [hre', hb]

/-- C2: a failure of the cache store (either of the wait-for-ready step or
of the guarded operation itself) never propagates: `getArrayItem` resolves
with the fallback `[]`, `addArrayItem` resolves with its input array, and a
cached read still resolves with the backing-store rows. -/
theorem cache_failure_never_propagates (cfg : CoreConfig)
    (st : RedisConnector.RedisState) (k n : String) (v : JsVal) (ttl : Nat)
    (dbRows : List JsVal) (sql : String) (params : List JsVal)
    (hfail : (∃ e, st.ready = Except.error e) ∨ (∃ e, st.opError = some e))
    (hn : n ≠ "") :
    RedisConnector.getArrayItem st k = Except.ok (JsVal.arr []) ∧
    RedisConnector.addArrayItem st k v ttl = Except.ok v ∧
    (DbConnector.getCacheQuery cfg st dbRows sql params (some n)).result =
      Except.ok (JsVal.arr dbRows) ∧
    (DbConnector.getCacheQuery cfg st dbRows sql params (some n)).dbQueried = true := by
  have hget : ∀ key, RedisConnector.getArrayItem st key = Except.ok (JsVal.arr []) := by
    intro key
    rcases hfail with ⟨e, he⟩ | ⟨e, he⟩
    · unfold RedisConnector.getArrayItem RedisConnector.safeExec
      rw [he]
    · unfold RedisConnector.getArrayItem RedisConnector.safeExec RedisConnector.getArrayItemFn
      rw [he]
      cases st.ready <;> rfl
  have hadd : RedisConnector.addArrayItem st k v ttl = Except.ok v := by
    unfold RedisConnector.addArrayItem RedisConnector.safeExec RedisConnector.addArrayItemFn
    cases st.ready <;> cases st.opError <;> rfl
  have hbody : (DbConnector.getCacheQueryBody cfg st dbRows n).result =
      Except.ok (JsVal.arr dbRows) ∧
      (DbConnector.getCacheQueryBody cfg st dbRows n).dbQueried = true := by
    unfold DbConnector.getCacheQueryBody
    by_cases hre : cfg.redisEnabled
    · simp [hre, hget n, DbConnector.jsLengthGtZero]
    · simp [hre]
  have hprov : DbConnector.getCacheQuery cfg st dbRows sql params (some n) =
      DbConnector.getCacheQueryBody cfg st dbRows n := by
    unfold DbConnector.getCacheQuery
    simp [hn]
  exact ⟨hget k, hadd, by rw [hprov]; exact hbody.1, by rw [hprov]; exact hbody.2⟩

/-- C2 witness: with the connection-wait failing concretely, the guarded
read falls back to `[]`, the guarded write returns its input, and the
cached read resolves with the backing-store rows. -/
theorem cache_failure_never_propagates_witness :
    RedisConnector.getArrayItem
        ⟨none, Except.error ⟨"Redis connection timeout (10000ms)", none⟩, none, fun _ => none⟩
        "users_1" = Except.ok (JsVal.arr []) ∧
    RedisConnector.addArrayItem
        ⟨none, Except.error ⟨"Redis connection timeout (10000ms)", none⟩, none, fun _ => none⟩
        "users_1" (JsVal.arr [JsVal.num 1]) 40000 = Except.ok (JsVal.arr [JsVal.num 1]) ∧
    (DbConnector.getCacheQuery ⟨false, none, false, none, [], true⟩
        ⟨none, Except.error ⟨"Redis connection timeout (10000ms)", none⟩, none, fun _ => none⟩
        [JsVal.num 1] "SELECT * FROM users" [] (some "users_1")).result =
      Except.ok (JsVal.arr [JsVal.num 1]) ∧
    (DbConnector.getCacheQuery ⟨false, none, false, none, [], true⟩
        ⟨none, Except.error ⟨"Redis connection timeout (10000ms)", none⟩, none, fun _ => none⟩
        [JsVal.num 1] "SELECT * FROM users" [] (some "users_1")).dbQueried = true :=
  cache_failure_never_propagates _ _ _ _ (JsVal.arr [JsVal.num 1]) _ _ _ _
    (Or.inl ⟨_, rfl⟩) (by decide)

/-- C8 (amended): a supplied manual pattern that is truthy in JavaScript (a
non-empty string, or an array) is returned verbatim as the pattern list,
independently of the auto-invalidation flag and of the statement. -/
theorem determineInvalidationPatterns_manual_priority (cfg : CoreConfig) (sql : String)
    (p : AutoInvalidate.ManualPattern) (hp : p.truthy = true) :
    AutoInvalidate.determineInvalidationPatterns cfg sql p = p.asList := by
  unfold AutoInvalidate.determineInvalidationPatterns
  rw [if_pos hp]

/-- C8 witness: a concrete manual pattern on a non-write statement with
auto-invalidation disabled is returned verbatim. -/
theorem determineInvalidationPatterns_manual_priority_witness :
    AutoInvalidate.ManualPattern.truthy (.str "manual-*") = true ∧
    AutoInvalidate.determineInvalidationPatterns ⟨false, none, false, none, [], true⟩
      "SELECT * FROM users WHERE id = ?" (.str "manual-*") = ["manual-*"] :=
  ⟨by decide, determineInvalidationPatterns_manual_priority _ _ _ (by decide)⟩

/-- C8 counterexample: an empty-string manual pattern is falsy, so it is
not returned verbatim — with auto-invalidation disabled the result is `[]`,
not `[""]`. -/
theorem determineInvalidationPatterns_empty_string_falsy :
    AutoInvalidate.determineInvalidationPatterns ⟨false, none, false, none, [], true⟩
      "INSERT INTO users (name) VALUES (?)" (.str "") = [] ∧
    ([] : List String) ≠ [""] := by
  constructor
  · decide
  · decide

/-- C10: a `getCacheQuery` call without a cache name while auto key
generation is disabled rejects with the `cacheName is required` error
before any cache access, connection acquisition, backing-store query, or
entry into the retry wrapper. -/
theorem getCacheQuery_requires_cacheName (cfg : CoreConfig)
    (st : RedisConnector.RedisState) (dbRows : List JsVal) (sql : String)
    (params : List JsVal) (h : AutoKey.isAutoKeyEnabled cfg = false) :
    DbConnector.getCacheQuery cfg st dbRows sql params none =
      ⟨Except.error DbConnector.cacheNameRequiredError, false, false, false, false, false⟩ := by
  unfold DbConnector.getCacheQuery
  simp [h]

/-- C10 witness: concrete configuration with both the auto-key flag and the
environment variable unset. -/
theorem getCacheQuery_requires_cacheName_witness :
    AutoKey.isAutoKeyEnabled ⟨false, none, false, none, [], true⟩ = false ∧
    DbConnector.getCacheQuery ⟨false, none, false, none, [], true⟩
        ⟨none, Except.ok (), none, fun _ => none⟩ [] "SELECT * FROM users" [] none =
      ⟨Except.error DbConnector.cacheNameRequiredError, false, false, false, false, false⟩ :=
  ⟨rfl, getCacheQuery_requires_cacheName _ _ _ _ _ rfl⟩

/-- C5 (code evaluated at the failing inputs): `getCacheQueryPagination`
computes `offset = page * pageSize` with no validation of `page`, so a
negative page yields a negative offset and a NaN-producing page (NaN
itself, or a non-numeric string) yields a `LIMIT NaN` clause — not the
offset 0 that the claim (and the repository's own pagination tests)
require.  A `null` page does behave as 0, via `null * pageSize = 0`. -/
theorem pagination_page_not_normalized :
    DbConnector.pageOffset (.num (-5)) 10 = some (-50) ∧
    DbConnector.paginatedSql "SELECT * FROM users" (.num (-5)) 10 =
      "SELECT * FROM users LIMIT -50, 10" ∧
    DbConnector.paginatedSql "SELECT * FROM users" .nan 10 =
      "SELECT * FROM users LIMIT NaN, 10" ∧
    DbConnector.paginatedSql "SELECT * FROM users" (.str "invalid") 10 =
      "SELECT * FROM users LIMIT NaN, 10" ∧
    DbConnector.paginatedSql "SELECT * FROM users" .null 10 =
      "SELECT * FROM users LIMIT 0, 10" ∧
    DbConnector.pageOffset (.num (-5)) 10 ≠ some 0 := by
  refine ⟨by decide, ?_, ?_, ?_, ?_, by decide⟩ <;> decide

/-- One-step unfolding of the retry loop body at positive fuel. -/
theorem retryGo_succ_eq {α : Type} (sd : Bool) (fn : Nat → Except Err α)
    (retries delay i fuel : Nat) :
    DbConnector.retryGo sd fn retries delay i (fuel + 1) =
      match (if sd then Except.error DbConnector.shutdownError else fn i) with
      | .ok v => ⟨some (.ok v), 1, []⟩
      | .error e =>
        if i = retries - 1 then ⟨some (.error e), 1, []⟩
        else if DbConnector.isTransientCode e.code then
          let rest := DbConnector.retryGo sd fn retries delay (i + 1) fuel
          ⟨rest.result, rest.attempts + 1, delay * 2 ^ i :: rest.delays⟩
        else ⟨some (.error e), 1, []⟩ := rfl

/-- Helper for C4: a run of consistently transient failures retries with
exponentially growing delays until the last attempt's error propagates. -/
theorem retryGo_all_transient {α : Type} (fn : Nat → Except Err α) (retries delay : Nat)
    (es : Nat → Err) :
    ∀ (n i : Nat), i + n + 1 = retries →
      (∀ j, i ≤ j → j < retries →
        fn j = Except.error (es j) ∧ DbConnector.isTransientCode (es j).code = true) →
      DbConnector.retryGo false fn retries delay i (n + 1) =
        ⟨some (Except.error (es (retries - 1))), n + 1,
         (List.range n).map (fun k => delay * 2 ^ (i + k))⟩ := by
  intro n
  induction n with
  | zero =>
    intro i hi hall
    obtain ⟨hf, ht⟩ := hall i le_rfl (by omega)
    have hi' : i = retries - 1 := by omega
    conv_lhs => rw [retryGo_succ_eq]
    simp only [Bool.false_eq_true, if_false, hf]
    rw [if_pos hi', hi']
    rfl
  | succ n ih =>
    intro i hi hall
    obtain ⟨hf, ht⟩ := hall i le_rfl (by omega)
    have hne : ¬ i = retries - 1 := by omega
    have hrest := ih (i + 1) (by omega) (fun j hj1 hj2 => hall j (by omega) hj2)
    conv_lhs => rw [retryGo_succ_eq]
    simp only [Bool.false_eq_true, if_false, hf]
    rw [if_neg hne, if_pos ht]
    simp only [hrest]
    refine congrArg (fun ds => DbConnector.RetryOutcome.mk
      (some (Except.error (es (retries - 1)))) (n + 1 + 1) ds) ?_
    rw [List.range_succ_eq_map, List.map_cons, List.map_map]
    refine congrArg₂ List.cons (by rw [Nat.add_zero]) ?_
    apply List.map_congr_left
    intro k _
    show delay * 2 ^ (i + 1 + k) = delay * 2 ^ (i + (k + 1))
    rw [show i + 1 + k = i + (k + 1) from by omega]

/-- C4: under the retry wrapper a non-transient first error propagates
immediately after a single attempt with no backoff sleep, while
consistently transient errors are retried up to the configured bound with
delay `baseDelay * 2 ^ attemptIndex` between attempts, after which the last
attempt's error propagates. -/
theorem executeWithRetry_classification {α : Type} (fn : Nat → Except Err α)
    (retries delay : Nat) (es : Nat → Err) (hr : 1 ≤ retries) :
    (DbConnector.isTransientCode (es 0).code = false → fn 0 = Except.error (es 0) →
      DbConnector.executeWithRetry false fn retries delay =
        ⟨some (Except.error (es 0)), 1, []⟩) ∧
    ((∀ i, i < retries →
        fn i = Except.error (es i) ∧ DbConnector.isTransientCode (es i).code = true) →
      DbConnector.executeWithRetry false fn retries delay =
        ⟨some (Except.error (es (retries - 1))), retries,
         (List.range (retries - 1)).map (fun k => delay * 2 ^ k)⟩) := by
  obtain ⟨n, rfl⟩ : ∃ n, retries = n + 1 := ⟨retries - 1, by omega⟩
  constructor
  · intro hnt hf
    unfold DbConnector.executeWithRetry
    simp only [DbConnector.retryGo, Bool.false_eq_true, if_false, hf]
    by_cases h0 : (0 : Nat) = n + 1 - 1
    · rw [if_pos h0]
    · rw [if_neg h0, if_neg (by simp [hnt])]
  · intro hall
    have h := retryGo_all_transient fn (n + 1) delay es n 0 (by omega)
      (fun j hj1 hj2 => hall j hj2)
    unfold DbConnector.executeWithRetry
    rw [h]
    refine congrArg (fun ds => DbConnector.RetryOutcome.mk
      (some (Except.error (es (n + 1 - 1)))) (n + 1) ds) ?_
    apply List.map_congr_left
    intro k _
    rw [Nat.zero_add]

/-- C4 witness: a consistently timing-out function is retried three times
with delays 1000 and 2000 before the error propagates, while a parse error
propagates after one attempt with no delay. -/
theorem executeWithRetry_classification_witness :
    (1 ≤ 3) ∧
    DbConnector.executeWithRetry false
        (fun _ => (Except.error ⟨"connect ETIMEDOUT", some "ETIMEDOUT"⟩ : Except Err (List JsVal)))
        3 1000 =
      ⟨some (Except.error ⟨"connect ETIMEDOUT", some "ETIMEDOUT"⟩), 3, [1000, 2000]⟩ ∧
    DbConnector.executeWithRetry false
        (fun _ => (Except.error ⟨"syntax error", some "ER_PARSE_ERROR"⟩ : Except Err (List JsVal)))
        3 1000 =
      ⟨some (Except.error ⟨"syntax error", some "ER_PARSE_ERROR"⟩), 1, []⟩ := by
  refine ⟨by omega, ?_, ?_⟩
  · have h := (executeWithRetry_classification
        (fun _ => (Except.error ⟨"connect ETIMEDOUT", some "ETIMEDOUT"⟩ : Except Err (List JsVal)))
        3 1000 (fun _ => ⟨"connect ETIMEDOUT", some "ETIMEDOUT"⟩) (by omega)).2
      (fun i hi => ⟨rfl, by decide⟩)
    rw [h]
    rfl
  · exact (executeWithRetry_classification
        (fun _ => (Except.error ⟨"syntax error", some "ER_PARSE_ERROR"⟩ : Except Err (List JsVal)))
        3 1000 (fun _ => ⟨"syntax error", some "ER_PARSE_ERROR"⟩) (by omega)).1 (by decide) rfl

/-- C6 (amended): for a statement with an extractable table name and no
WHERE clause, and at most three parameters (so that the default auto
strategy selects the detailed key), `generateCacheKey` returns exactly
`table:all`; with four or more parameters the auto strategy switches to the
simple key `table:paramHash` instead. -/
theorem generateCacheKey_no_where_all (sql t : String) (params : List JsVal)
    (ht : AutoKey.extractTableName sql = some t)
    (hw : AutoKey.extractWhereConditions sql = [])
    (hp : params.length ≤ 3) :
    AutoKey.generateCacheKey sql params none = t ++ ":all" := by
  unfold AutoKey.generateCacheKey
  rw [Option.getD_none, if_neg (by decide), if_neg (by decide), if_pos hp]
  unfold AutoKey.generateDetailedKey
  rw [ht, hw]
  rfl

/-- C6 witness: a concrete no-WHERE select with an empty parameter list
generates `users:all`. -/
theorem generateCacheKey_no_where_all_witness :
    AutoKey.extractTableName "SELECT * FROM users" = some "users" ∧
    AutoKey.extractWhereConditions "SELECT * FROM users" = [] ∧
    ([] : List JsVal).length ≤ 3 ∧
    AutoKey.generateCacheKey "SELECT * FROM users" [] none = "users:all" :=
  ⟨by decide, by decide, by decide,
   generateCacheKey_no_where_all "SELECT * FROM users" "users" []
     (by decide) (by decide) (by decide)⟩

/-- C6 counterexample: with four parameters the auto strategy selects the
simple key, so the same no-WHERE statement yields the parameter-hash key
`users:7bd4c63b`, not `users:all`. -/
theorem generateCacheKey_four_params_not_all :
    AutoKey.extractTableName "SELECT * FROM users" = some "users" ∧
    AutoKey.extractWhereConditions "SELECT * FROM users" = [] ∧
    AutoKey.generateCacheKey "SELECT * FROM users"
        [JsVal.num 1, JsVal.num 2, JsVal.num 3, JsVal.num 4] none = "users:7bd4c63b" ∧
    ("users:7bd4c63b" : String) ≠ "users:all" :=
  ⟨by decide, by decide, by decide, by decide⟩

/-- C7: statements whose top-level WHERE condition fragments are
permutations of each other decompose to the same sorted identifier list. -/
theorem extractColumnNames_where_order_invariant (s1 s2 : String)
    (hperm : (AutoKey.extractWhereConditions s1).Perm (AutoKey.extractWhereConditions s2)) :
    AutoKey.extractColumnNames (AutoKey.extractWhereConditions s1) =
      AutoKey.extractColumnNames (AutoKey.extractWhereConditions s2) := by
  unfold AutoKey.extractColumnNames
  have hcols := hperm.filterMap AutoKey.matchColumn
  exact List.eq_of_perm_of_sorted
    ((List.perm_insertionSort _ _).trans (hcols.trans (List.perm_insertionSort _ _).symm))
    (List.sorted_insertionSort _ _) (List.sorted_insertionSort _ _)

/-- C7 witness: swapping the two conditions of a concrete WHERE clause
permutes the extracted fragments and leaves the sorted identifiers
unchanged. -/
theorem extractColumnNames_where_order_invariant_witness :
    (AutoKey.extractWhereConditions "SELECT * FROM t WHERE a = ? AND b = ?").Perm
      (AutoKey.extractWhereConditions "SELECT * FROM t WHERE b = ? AND a = ?") ∧
    AutoKey.extractColumnNames
        (AutoKey.extractWhereConditions "SELECT * FROM t WHERE a = ? AND b = ?") =
      AutoKey.extractColumnNames
        (AutoKey.extractWhereConditions "SELECT * FROM t WHERE b = ? AND a = ?") :=
  ⟨by decide,
   extractColumnNames_where_order_invariant "SELECT * FROM t WHERE a = ? AND b = ?"
     "SELECT * FROM t WHERE b = ? AND a = ?" (by decide)⟩

/-- C9: with the cache layer enabled and the cache store healthy, a cached
empty array is treated as a miss — the backing store is queried and its
rows are returned and re-cached — while a cached non-empty array is served
as a hit without acquiring a connection or querying the backing store. -/
theorem getCacheQuery_empty_array_is_miss (cfg : CoreConfig)
    (st : RedisConnector.RedisState) (dbRows : List JsVal) (sql : String)
    (params : List JsVal) (k : String) (x : JsVal) (xs : List JsVal)
    (hre : cfg.redisEnabled = true) (hready : st.ready = Except.ok ())
    (hop : st.opError = none) (hk : k ≠ "") :
    (st.store (RedisConnector.namespaceKey st k) = some (JsVal.arr []) →
      DbConnector.getCacheQuery cfg st dbRows sql params (some k) =
        ⟨Except.ok (JsVal.arr dbRows), true, true, true, true, true⟩) ∧
    (st.store (RedisConnector.namespaceKey st k) = some (JsVal.arr (x :: xs)) →
      DbConnector.getCacheQuery cfg st dbRows sql params (some k) =
        ⟨Except.ok (JsVal.arr (x :: xs)), true, true, false, false, false⟩) := by
  have hprov : DbConnector.getCacheQuery cfg st dbRows sql params (some k) =
      DbConnector.getCacheQueryBody cfg st dbRows k := by
    unfold DbConnector.getCacheQuery
    simp [hk]
  constructor
  · intro hstore
    have hga : RedisConnector.getArrayItem st k = Except.ok (JsVal.arr []) := by
      unfold RedisConnector.getArrayItem RedisConnector.safeExec RedisConnector.getArrayItemFn
      rw [hready, hop, hstore]
    rw [hprov]
    unfold DbConnector.getCacheQueryBody
    rw [if_pos hre, hga]
    rfl
  · intro hstore
    have hga : RedisConnector.getArrayItem st k = Except.ok (JsVal.arr (x :: xs)) := by
      unfold RedisConnector.getArrayItem RedisConnector.safeExec RedisConnector.getArrayItemFn
      rw [hready, hop, hstore]
    rw [hprov]
    unfold DbConnector.getCacheQueryBody
    rw [if_pos hre, hga]
    rfl

/-- C9 witness: a concrete healthy cache holding an empty array under the
requested key leads to a backing-store query whose rows are returned. -/
theorem getCacheQuery_empty_array_is_miss_witness :
    DbConnector.getCacheQuery ⟨false, none, false, none, [], true⟩
        ⟨none, Except.ok (), none, fun s => if s = "users_1" then some (JsVal.arr []) else none⟩
        [JsVal.num 7] "SELECT * FROM users" [] (some "users_1") =
      ⟨Except.ok (JsVal.arr [JsVal.num 7]), true, true, true, true, true⟩ :=
  (getCacheQuery_empty_array_is_miss ⟨false, none, false, none, [], true⟩
      ⟨none, Except.ok (), none, fun s => if s = "users_1" then some (JsVal.arr []) else none⟩
      [JsVal.num 7] "SELECT * FROM users" [] "users_1" JsVal.null []
      rfl rfl rfl (by decide)).1 rfl
